import Mathlib

/-!
# terraform-provider-docker-buildkit: provider configuration

Shallow embedding of `internal/provider/provider.go`.

The provider is written against terraform-plugin-framework.  The parts of the
framework that the provider code calls are modelled here as plain data:

* `types.String` is a three-state value (null, unknown, known);
* a Go slice is either `nil` or backed by a sequence of elements;
* `diag.Diagnostics` is a sequence of diagnostics whose `Append` skips a
  diagnostic that is already contained and whose `HasError` looks for a
  diagnostic of error severity;
* `req.Config.Get(ctx, &config)` is taken as given: a `Config` carries the model
  value that decoding stores into the target and the diagnostics it returns.
-/

namespace BuildkitProvider

/-! ## Framework values -/

/-- Go slice value: the `nil` slice, or a slice backed by the listed elements
(a composite literal with no elements is `lit []`, which is not `nil`). -/
inductive GoSlice (α : Type) where
  | nil : GoSlice α
  | lit (elems : List α) : GoSlice α

/-- Elements visited by `for _, x := range s`; none for the nil slice. -/
def GoSlice.toList {α : Type} : GoSlice α → List α
  | .nil => []
  | .lit elems => elems

/-- Go `len(s)`. -/
def GoSlice.len {α : Type} (s : GoSlice α) : Nat := s.toList.length

/-- Go `s == nil`. -/
def GoSlice.isNil {α : Type} : GoSlice α → Bool
  | .nil => true
  | .lit _ => false

/-- Framework `types.String`: null, unknown, or a known Go string. -/
inductive types_String where
  | null : types_String
  | unknown : types_String
  | value (s : String) : types_String
  deriving DecidableEq, Repr

/-- Framework `types.StringValue(s)`: the known string `s`. -/
def types_StringValue (s : String) : types_String := .value s

/-- Framework `(types.String).IsNull()`: true for the null state only. -/
def types_String.IsNull : types_String → Bool
  | .null => true
  | .unknown => false
  | .value _ => false

/-- Framework `(types.String).IsUnknown()`. -/
def types_String.IsUnknown : types_String → Bool
  | .null => false
  | .unknown => true
  | .value _ => false

/-- Framework `(types.String).ValueString()`: the known string, `""` for null
and unknown. -/
def types_String.ValueString : types_String → String
  | .null => ""
  | .unknown => ""
  | .value s => s

/-! ## Diagnostics -/

/-- Framework `diag.Severity`. -/
inductive Severity where
  | SeverityInvalid : Severity
  | SeverityError : Severity
  | SeverityWarning : Severity
  deriving DecidableEq, Repr

/-- Framework `diag.Diagnostic`: severity, summary and detail, and the
attribute path of a diagnostic that was built with one (`none` for a plain
diagnostic).  Two diagnostics are `Equal` when all four agree. -/
structure Diagnostic where
  Severity : Severity
  Summary : String
  Detail : String
  Path : Option String
  deriving DecidableEq, Repr

/-- Framework `diag.Diagnostics`. -/
abbrev Diagnostics := List Diagnostic

/-- Framework `diag.NewErrorDiagnostic`. -/
def NewErrorDiagnostic (summary detail : String) : Diagnostic :=
  { Severity := .SeverityError, Summary := summary, Detail := detail, Path := none }

/-- Framework `Diagnostics.Contains`: some element is `Equal` to `d`. -/
def Diagnostics.Contains (diags : Diagnostics) (d : Diagnostic) : Bool :=
  diags.any (fun x => decide (x = d))

/-- Framework `Diagnostics.Append`: the incoming diagnostics are added one by
one at the end, each skipped when the collection already contains it. -/
def Diagnostics.Append (diags : Diagnostics) (incoming : List Diagnostic) : Diagnostics :=
  incoming.foldl (fun acc d => if Diagnostics.Contains acc d then acc else acc ++ [d]) diags

/-- Framework `Diagnostics.AddError`: append a new error diagnostic. -/
def Diagnostics.AddError (diags : Diagnostics) (summary detail : String) : Diagnostics :=
  Diagnostics.Append diags [NewErrorDiagnostic summary detail]

/-- Framework `Diagnostics.HasError`: some element has error severity. -/
def Diagnostics.HasError (diags : Diagnostics) : Bool :=
  diags.any (fun d => decide (d.Severity = .SeverityError))

/-! ## Provider data model -/

/-- Source `type buildkitProvider struct`. -/
structure buildkitProvider where
  version : String
  deriving DecidableEq, Repr

/-- Source `type registryAuthModel struct`. -/
structure registryAuthModel where
  Address : types_String
  Username : types_String
  Password : types_String
  deriving DecidableEq, Repr

/-- Source `type buildkitProviderModel struct`. -/
structure buildkitProviderModel where
  BuildkitHost : types_String
  RegistryAuth : GoSlice registryAuthModel

/-- Go `any` as held by the provider-data fields of a configure response: the
nil interface, a `buildkitProviderModel`, or some other value (identified by
a tag). -/
inductive AnyValue where
  | nil : AnyValue
  | model (m : buildkitProviderModel) : AnyValue
  | other (tag : Nat) : AnyValue

/-- Framework `tfsdk.Config` as seen by `Get` into a `buildkitProviderModel`:
the value decoding leaves in the target and the diagnostics it returns.  For
the string and list-nested attributes of the provider schema the diagnostics
of decoding are errors; theorems that depend on this say so. -/
structure Config where
  decoded : buildkitProviderModel
  diags : Diagnostics

/-- Framework `req.Config.Get(ctx, &config)`: the new content of the target
and the returned diagnostics. -/
def Config.Get (c : Config) (_target : buildkitProviderModel) :
    buildkitProviderModel × Diagnostics :=
  (c.decoded, c.diags)

/-- Framework `provider.ConfigureRequest`. -/
structure ConfigureRequest where
  Config : Config

/-- Framework `provider.ConfigureResponse`. -/
structure ConfigureResponse where
  DataSourceData : AnyValue
  Diagnostics : Diagnostics
  ResourceData : AnyValue

/-- Framework `provider.MetadataResponse`. -/
structure MetadataResponse where
  TypeName : String
  Version : String
  deriving DecidableEq, Repr

/-- Framework provider `schema.Attribute`, the two kinds used by the provider:
`schema.StringAttribute` and `schema.ListNestedAttribute` (whose
`NestedObject.Attributes` is again a map of attributes).  A Go map literal is
kept as its key/value pairs in the order written.  A flag the literal does not
set has its zero value `false`. -/
inductive schema_Attribute where
  | StringAttribute (Required Optional Sensitive : Bool) (Description : String) :
      schema_Attribute
  | ListNestedAttribute (NestedObject : List (String × schema_Attribute))
      (Required Optional Sensitive : Bool) (Description : String) : schema_Attribute

/-- Framework `Attribute.IsRequired()`. -/
def schema_Attribute.IsRequired : schema_Attribute → Bool
  | .StringAttribute r _ _ _ => r
  | .ListNestedAttribute _ r _ _ _ => r

/-- Framework `Attribute.IsOptional()`. -/
def schema_Attribute.IsOptional : schema_Attribute → Bool
  | .StringAttribute _ o _ _ => o
  | .ListNestedAttribute _ _ o _ _ => o

/-- Framework `Attribute.IsSensitive()`. -/
def schema_Attribute.IsSensitive : schema_Attribute → Bool
  | .StringAttribute _ _ s _ => s
  | .ListNestedAttribute _ _ _ s _ => s

/-- Whether the attribute is a `schema.StringAttribute`. -/
def schema_Attribute.isStringAttribute : schema_Attribute → Bool
  | .StringAttribute _ _ _ _ => true
  | .ListNestedAttribute _ _ _ _ _ => false

/-- Whether the attribute is a `schema.ListNestedAttribute`. -/
def schema_Attribute.isListNestedAttribute : schema_Attribute → Bool
  | .StringAttribute _ _ _ _ => false
  | .ListNestedAttribute _ _ _ _ _ => true

/-- The attributes of the nested object of a `schema.ListNestedAttribute`; a
string attribute has none. -/
def schema_Attribute.nestedAttributes : schema_Attribute → List (String × schema_Attribute)
  | .StringAttribute _ _ _ _ => []
  | .ListNestedAttribute nested _ _ _ _ => nested

mutual
/-- Paths, below an attribute, of the nested attributes marked sensitive. -/
def schema_Attribute.sensitiveBelow : schema_Attribute → List (List String)
  | .StringAttribute _ _ _ _ => []
  | .ListNestedAttribute nested _ _ _ _ => sensitivePaths nested
/-- Paths of all attributes of an attribute map that are marked sensitive, at
any depth; a path lists the keys from the top. -/
def sensitivePaths : List (String × schema_Attribute) → List (List String)
  | [] => []
  | (key, attr) :: rest =>
    (if attr.IsSensitive then [[key]] else [])
      ++ (attr.sensitiveBelow).map (fun path => key :: path)
      ++ sensitivePaths rest
end

/-- Framework provider `schema.Schema`, the field the provider sets. -/
structure schema_Schema where
  Attributes : List (String × schema_Attribute)

/-- Framework `provider.SchemaResponse`. -/
structure SchemaResponse where
  Schema : schema_Schema
  Diagnostics : Diagnostics

/-! ## Provider operations -/

/-- Zero value of `buildkitProviderModel` (`var config buildkitProviderModel`). -/
def buildkitProviderModel.zero : buildkitProviderModel :=
  { BuildkitHost := .null, RegistryAuth := .nil }

/-- The default BuildKit daemon address assigned by `Configure`. -/
def defaultBuildkitHost : String := "unix:///var/run/buildkit/buildkitd.sock"

/-- Source `Configure`, the loop `for _, auth := range config.RegistryAuth`:
`some r` when the body returned from `Configure` leaving the response `r`,
`none` when the loop ran to its end (the response is then untouched). -/
def rangeRegistryAuth : List registryAuthModel → ConfigureResponse → Option ConfigureResponse
  | [], _ => none
  | auth :: rest, resp =>
    if auth.Address.IsNull || auth.Username.IsNull || auth.Password.IsNull then
      some { resp with
        Diagnostics := Diagnostics.AddError resp.Diagnostics
          "Invalid Registry Auth Configuration"
          "All fields (address, username, password) must be provided for each registry_auth block." }
    else
      rangeRegistryAuth rest resp

/-- Source `(p *buildkitProvider) Configure`: the response after the call. -/
def buildkitProvider.Configure (_p : buildkitProvider) (req : ConfigureRequest)
    (resp : ConfigureResponse) : ConfigureResponse :=
  let got := req.Config.Get buildkitProviderModel.zero
  let config := got.1
  let resp := { resp with Diagnostics := Diagnostics.Append resp.Diagnostics got.2 }
  if Diagnostics.HasError resp.Diagnostics then
    resp
  else
    let config :=
      if config.BuildkitHost.IsNull then
        { config with BuildkitHost := types_StringValue "unix:///var/run/buildkit/buildkitd.sock" }
      else config
    match rangeRegistryAuth config.RegistryAuth.toList resp with
    | some r => r
    | none => { resp with ResourceData := .model config }

/-- Source `(p *buildkitProvider) Metadata`: the response after the call. -/
def buildkitProvider.Metadata (p : buildkitProvider) (resp : MetadataResponse) :
    MetadataResponse :=
  { resp with TypeName := "buildkit", Version := p.version }

/-- Source `(p *buildkitProvider) Schema`: the response after the call. -/
def buildkitProvider.Schema (_p : buildkitProvider) (resp : SchemaResponse) : SchemaResponse :=
  { resp with
    Schema :=
      { Attributes :=
          [ ("buildkit_host",
              .StringAttribute false true false
                "The address of the BuildKit daemon. Defaults to 'unix:///var/run/buildkit/buildkitd.sock'."),
            ("registry_auth",
              .ListNestedAttribute
                [ ("address",
                    .StringAttribute true false false "The address of the Docker registry."),
                  ("username",
                    .StringAttribute true false false "The username for the Docker registry."),
                  ("password",
                    .StringAttribute true false true "The password for the Docker registry.") ]
                false true false
                "Authentication configuration for Docker registries.") ] } }

/-- Source `(p *buildkitProvider) Resources`, over the framework interface
type `Resource` of the produced values. -/
def buildkitProvider.Resources (Resource : Type) (_p : buildkitProvider) :
    GoSlice (Unit → Resource) :=
  .lit []

/-- Source `(p *buildkitProvider) DataSources`. -/
def buildkitProvider.DataSources (DataSource : Type) (_p : buildkitProvider) :
    GoSlice (Unit → DataSource) :=
  .lit []

/-- Source `(p *buildkitProvider) Functions`. -/
def buildkitProvider.Functions (Function : Type) (_p : buildkitProvider) :
    GoSlice (Unit → Function) :=
  .lit []

/-- Source `New`: a factory returning a provider that holds `version`. -/
def New (version : String) : Unit → buildkitProvider :=
  fun _ => { version := version }

/-- The fresh response the framework passes to `Configure`. -/
def ConfigureResponse.fresh : ConfigureResponse :=
  { DataSourceData := .nil, Diagnostics := [], ResourceData := .nil }

/-- The diagnostic added by `Configure` for an incomplete registry_auth entry. -/
def invalidRegistryAuth : Diagnostic :=
  NewErrorDiagnostic "Invalid Registry Auth Configuration"
    "All fields (address, username, password) must be provided for each registry_auth block."

/-- The configuration handed over by `Configure`: the decoded model, a null
`buildkit_host` replaced by the default address. -/
def withDefaultHost (config : buildkitProviderModel) : buildkitProviderModel :=
  if config.BuildkitHost.IsNull then
    { config with BuildkitHost := types_StringValue "unix:///var/run/buildkit/buildkitd.sock" }
  else config

/-! ## Concrete inputs -/

/-- A provider built for version `"dev"`. -/
def exampleProvider : buildkitProvider := New "dev" ()

/-- A complete registry_auth entry. -/
def completeAuth : registryAuthModel :=
  { Address := .value "a", Username := .value "u", Password := .value "p" }

/-- A registry_auth entry without `password`. -/
def authMissingPassword : registryAuthModel :=
  { Address := .value "a", Username := .value "u", Password := .null }

/-- A registry_auth entry without `address`. -/
def authMissingAddress : registryAuthModel :=
  { Address := .null, Username := .value "u", Password := .value "hunter2" }

/-- A registry_auth entry whose three fields are empty strings. -/
def authEmptyStrings : registryAuthModel :=
  { Address := .value "", Username := .value "", Password := .value "" }

/-- Request: `buildkit_host` absent, one entry without `password`. -/
def reqMissingPassword : ConfigureRequest :=
  { Config := { decoded := { BuildkitHost := .null, RegistryAuth := .lit [authMissingPassword] },
                diags := [] } }

/-- Request: `buildkit_host` absent, one complete entry. -/
def reqDefaultHost : ConfigureRequest :=
  { Config := { decoded := { BuildkitHost := .null, RegistryAuth := .lit [completeAuth] },
                diags := [] } }

/-- Request: `buildkit_host = "tcp://host:1234"`, `registry_auth` absent. -/
def reqTcpHost : ConfigureRequest :=
  { Config := { decoded := { BuildkitHost := .value "tcp://host:1234", RegistryAuth := .nil },
                diags := [] } }

/-- Request: `buildkit_host` absent, a complete entry followed by an
incomplete one and another complete one. -/
def reqSecondIncomplete : ConfigureRequest :=
  { Config := { decoded := { BuildkitHost := .null,
                             RegistryAuth := .lit [completeAuth, authMissingAddress, completeAuth] },
                diags := [] } }

/-- Request: `buildkit_host = ""`, `registry_auth` absent. -/
def reqEmptyHost : ConfigureRequest :=
  { Config := { decoded := { BuildkitHost := .value "", RegistryAuth := .nil },
                diags := [] } }

/-- Request: `buildkit_host` absent, one entry of three empty strings. -/
def reqEmptyStringsAuth : ConfigureRequest :=
  { Config := { decoded := { BuildkitHost := .null, RegistryAuth := .lit [authEmptyStrings] },
                diags := [] } }

/-- A metadata response before the call, with unrelated content. -/
def metadataResponseBefore : MetadataResponse :=
  { TypeName := "other", Version := "0.0.0" }

/-- An error diagnostic as returned by decoding, bound to an attribute path. -/
def decodeError : Diagnostic :=
  { Severity := .SeverityError, Summary := "Value Conversion Error",
    Detail := "unhandled unknown value", Path := some "registry_auth" }

/-- A warning diagnostic left in a response before `Configure` is called. -/
def priorWarning : Diagnostic :=
  { Severity := .SeverityWarning, Summary := "Deprecated", Detail := "old form",
    Path := none }

/-- Request: decoding returns one error; the decoded model has `buildkit_host`
absent and one entry without `password`. -/
def reqDecodeError : ConfigureRequest :=
  { Config := { decoded := { BuildkitHost := .null, RegistryAuth := .lit [authMissingPassword] },
                diags := [decodeError] } }

/-- A response that already holds the diagnostic `decodeError`. -/
def respWithDecodeError : ConfigureResponse :=
  { DataSourceData := .nil, Diagnostics := [decodeError], ResourceData := .nil }

/-- Request: `registry_auth` is unknown, which decoding into a Go slice rejects
with an error; the target keeps its zero value, so the decoded model has no
entry at all. -/
def reqUnknownRegistryAuth : ConfigureRequest :=
  { Config := { decoded := buildkitProviderModel.zero, diags := [decodeError] } }

/-- A response whose `DataSourceData` and `ResourceData` hold other values and
whose diagnostics hold a warning. -/
def respWithData : ConfigureResponse :=
  { DataSourceData := .other 7, Diagnostics := [priorWarning], ResourceData := .other 9 }

/-! ## Auxiliary facts about diagnostics and the validation loop -/

theorem Diagnostics.Append_nil (diags : Diagnostics) :
    Diagnostics.Append diags [] = diags := rfl

theorem Diagnostics.HasError_of_mem {diags : Diagnostics} {d : Diagnostic}
    (hd : d ∈ diags) (hs : d.Severity = .SeverityError) :
    Diagnostics.HasError diags = true := by
  unfold Diagnostics.HasError
  rw [List.any_eq_true]
  exact ⟨d, hd, by simp [hs]⟩

theorem Diagnostics.HasError_AddError (diags : Diagnostics) (summary detail : String) :
    Diagnostics.HasError (Diagnostics.AddError diags summary detail) = true := by
  unfold Diagnostics.AddError Diagnostics.Append
  simp only [List.foldl_cons, List.foldl_nil]
  split
  · rename_i hc
    unfold Diagnostics.Contains at hc
    rw [List.any_eq_true] at hc
    obtain ⟨x, hx, hxe⟩ := hc
    have hxd : x = NewErrorDiagnostic summary detail := by simpa using hxe
    exact Diagnostics.HasError_of_mem hx (by rw [hxd]; rfl)
  · exact Diagnostics.HasError_of_mem (d := NewErrorDiagnostic summary detail) (by simp) rfl

theorem Diagnostics.AddError_of_not_HasError {diags : Diagnostics}
    (h : Diagnostics.HasError diags = false) (summary detail : String) :
    Diagnostics.AddError diags summary detail = diags ++ [NewErrorDiagnostic summary detail] := by
  unfold Diagnostics.AddError Diagnostics.Append
  simp only [List.foldl_cons, List.foldl_nil]
  split
  · rename_i hc
    unfold Diagnostics.Contains at hc
    rw [List.any_eq_true] at hc
    obtain ⟨x, hx, hxe⟩ := hc
    have hxd : x = NewErrorDiagnostic summary detail := by simpa using hxe
    have := Diagnostics.HasError_of_mem hx (by rw [hxd]; rfl)
    rw [h] at this
    cases this
  · rfl

theorem rangeRegistryAuth_of_all_complete (auths : List registryAuthModel)
    (resp : ConfigureResponse)
    (h : ∀ a ∈ auths, a.Address.IsNull = false ∧ a.Username.IsNull = false ∧
      a.Password.IsNull = false) :
    rangeRegistryAuth auths resp = none := by
  induction auths with
  | nil => rfl
  | cons a rest ih =>
    have ha := h a (List.mem_cons_self a rest)
    unfold rangeRegistryAuth
    simp only [ha.1, ha.2.1, ha.2.2, Bool.or_self, Bool.false_eq_true, if_false]
    exact ih (fun b hb => h b (List.mem_cons_of_mem a hb))

theorem rangeRegistryAuth_of_incomplete (auths : List registryAuthModel)
    (resp : ConfigureResponse)
    (h : ∃ a ∈ auths, a.Address.IsNull = true ∨ a.Username.IsNull = true ∨
      a.Password.IsNull = true) :
    rangeRegistryAuth auths resp =
      some { resp with
        Diagnostics := Diagnostics.AddError resp.Diagnostics
          "Invalid Registry Auth Configuration"
          "All fields (address, username, password) must be provided for each registry_auth block." } := by
  induction auths with
  | nil =>
    obtain ⟨a, ha, _⟩ := h
    cases ha
  | cons a rest ih =>
    unfold rangeRegistryAuth
    by_cases hc : (a.Address.IsNull || a.Username.IsNull || a.Password.IsNull) = true
    · rw [if_pos hc]
    · rw [if_neg hc]
      apply ih
      obtain ⟨b, hb, hbn⟩ := h
      rcases List.mem_cons.mp hb with rfl | hb
      · exfalso
        apply hc
        rcases hbn with h1 | h1 | h1 <;> simp [h1]
      · exact ⟨b, hb, hbn⟩

/-- Every registry_auth entry either has a null field or all three non-null. -/
theorem complete_or_incomplete (auths : List registryAuthModel) :
    (∃ a ∈ auths, a.Address.IsNull = true ∨ a.Username.IsNull = true ∨
      a.Password.IsNull = true) ∨
    (∀ a ∈ auths, a.Address.IsNull = false ∧ a.Username.IsNull = false ∧
      a.Password.IsNull = false) := by
  by_cases h : ∃ a ∈ auths, a.Address.IsNull = true ∨ a.Username.IsNull = true ∨
      a.Password.IsNull = true
  · exact Or.inl h
  · right
    intro a ha
    have hn : ¬ (a.Address.IsNull = true ∨ a.Username.IsNull = true ∨
      a.Password.IsNull = true) := fun hx => h ⟨a, ha, hx⟩
    simp only [not_or, Bool.not_eq_true] at hn
    exact hn

/-- Early return of `Configure` when the diagnostics hold an error after decoding. -/
theorem Configure_of_decode_error (p : buildkitProvider) (req : ConfigureRequest)
    (resp : ConfigureResponse)
    (h : Diagnostics.HasError (Diagnostics.Append resp.Diagnostics req.Config.diags) = true) :
    p.Configure req resp =
      { resp with Diagnostics := Diagnostics.Append resp.Diagnostics req.Config.diags } := by
  simp only [buildkitProvider.Configure, Config.Get, h, if_true]

/-- Return of `Configure` from inside the validation loop. -/
theorem Configure_of_incomplete (p : buildkitProvider) (req : ConfigureRequest)
    (resp : ConfigureResponse)
    (h : Diagnostics.HasError (Diagnostics.Append resp.Diagnostics req.Config.diags) = false)
    (hinc : ∃ a ∈ req.Config.decoded.RegistryAuth.toList, a.Address.IsNull = true ∨
      a.Username.IsNull = true ∨ a.Password.IsNull = true) :
    p.Configure req resp =
      { resp with
        Diagnostics := Diagnostics.AddError
          (Diagnostics.Append resp.Diagnostics req.Config.diags)
          "Invalid Registry Auth Configuration"
          "All fields (address, username, password) must be provided for each registry_auth block." } := by
  have hl : (withDefaultHost req.Config.decoded).RegistryAuth = req.Config.decoded.RegistryAuth := by
    unfold withDefaultHost; split <;> rfl
  have := rangeRegistryAuth_of_incomplete (withDefaultHost req.Config.decoded).RegistryAuth.toList
    { resp with Diagnostics := Diagnostics.Append resp.Diagnostics req.Config.diags }
    (by rw [hl]; exact hinc)
  simp only [buildkitProvider.Configure, Config.Get, h, Bool.false_eq_true, if_false]
  unfold withDefaultHost at this
  rw [this]

/-- Normal end of `Configure`. -/
theorem Configure_of_complete (p : buildkitProvider) (req : ConfigureRequest)
    (resp : ConfigureResponse)
    (h : Diagnostics.HasError (Diagnostics.Append resp.Diagnostics req.Config.diags) = false)
    (hall : ∀ a ∈ req.Config.decoded.RegistryAuth.toList, a.Address.IsNull = false ∧
      a.Username.IsNull = false ∧ a.Password.IsNull = false) :
    p.Configure req resp =
      { resp with
        Diagnostics := Diagnostics.Append resp.Diagnostics req.Config.diags
        ResourceData := .model (withDefaultHost req.Config.decoded) } := by
  have hl : (withDefaultHost req.Config.decoded).RegistryAuth = req.Config.decoded.RegistryAuth := by
    unfold withDefaultHost; split <;> rfl
  have := rangeRegistryAuth_of_all_complete (withDefaultHost req.Config.decoded).RegistryAuth.toList
    { resp with Diagnostics := Diagnostics.Append resp.Diagnostics req.Config.diags }
    (by rw [hl]; exact hall)
  simp only [buildkitProvider.Configure, Config.Get, h, Bool.false_eq_true, if_false]
  unfold withDefaultHost at this ⊢
  rw [this]

theorem Diagnostics.HasError_append_singleton (acc : Diagnostics) (d : Diagnostic) :
    Diagnostics.HasError (acc ++ [d]) =
      (Diagnostics.HasError acc || decide (d.Severity = .SeverityError)) := by
  simp [Diagnostics.HasError]

/-- `Append` yields an error exactly when one of the two collections holds one. -/
theorem Diagnostics.HasError_Append (diags incoming : Diagnostics) :
    Diagnostics.HasError (Diagnostics.Append diags incoming) =
      (Diagnostics.HasError diags || Diagnostics.HasError incoming) := by
  unfold Diagnostics.Append
  induction incoming generalizing diags with
  | nil => simp [Diagnostics.HasError]
  | cons d rest ih =>
    rw [List.foldl_cons, ih]
    have hcons : Diagnostics.HasError (d :: rest) =
        (decide (d.Severity = .SeverityError) || Diagnostics.HasError rest) := by
      simp [Diagnostics.HasError]
    rw [hcons, ← Bool.or_assoc]
    congr 1
    split
    · rename_i hc
      by_cases hs : d.Severity = .SeverityError
      · unfold Diagnostics.Contains at hc
        rw [List.any_eq_true] at hc
        obtain ⟨x, hx, hxe⟩ := hc
        have hxd : x = d := by simpa using hxe
        rw [Diagnostics.HasError_of_mem hx (by rw [hxd]; exact hs)]
        simp
      · simp [hs]
    · exact Diagnostics.HasError_append_singleton diags d

/-- A call of `Configure` that ends without an error diagnostic ran to its last
statement: every entry is complete and the defaulted model is in `ResourceData`. -/
theorem Configure_of_success (p : buildkitProvider) (req : ConfigureRequest)
    (resp : ConfigureResponse)
    (hok : Diagnostics.HasError (p.Configure req resp).Diagnostics = false) :
    (∀ a ∈ req.Config.decoded.RegistryAuth.toList, a.Address.IsNull = false ∧
      a.Username.IsNull = false ∧ a.Password.IsNull = false) ∧
    p.Configure req resp =
      { resp with
        Diagnostics := Diagnostics.Append resp.Diagnostics req.Config.diags
        ResourceData := .model (withDefaultHost req.Config.decoded) } := by
  cases h : Diagnostics.HasError (Diagnostics.Append resp.Diagnostics req.Config.diags) with
  | true =>
    rw [Configure_of_decode_error p req resp h] at hok
    simp only [h] at hok
    cases hok
  | false =>
    rcases complete_or_incomplete req.Config.decoded.RegistryAuth.toList with hinc | hall
    · rw [Configure_of_incomplete p req resp h hinc] at hok
      simp only [Diagnostics.HasError_AddError] at hok
      cases hok
    · exact ⟨hall, Configure_of_complete p req resp h hall⟩

theorem withDefaultHost_RegistryAuth (config : buildkitProviderModel) :
    (withDefaultHost config).RegistryAuth = config.RegistryAuth := by
  unfold withDefaultHost; split <;> rfl

/-! ## Configure: validation outcome -/

/-- Claim C1: for a configuration that decodes without diagnostics (into a
response that holds no error yet), `Configure` reports an error if and only if
some registry_auth entry has a null address, username or password; equivalently
it ends without error exactly when every entry has all three fields non-null. -/
theorem C1_configure_error_iff_incomplete (p : buildkitProvider) (req : ConfigureRequest)
    (resp : ConfigureResponse)
    (hdec : req.Config.diags = [])
    (hprior : Diagnostics.HasError resp.Diagnostics = false) :
    (Diagnostics.HasError (p.Configure req resp).Diagnostics = true ↔
      ∃ a ∈ req.Config.decoded.RegistryAuth.toList,
        a.Address.IsNull = true ∨ a.Username.IsNull = true ∨ a.Password.IsNull = true) ∧
    (Diagnostics.HasError (p.Configure req resp).Diagnostics = false ↔
      ∀ a ∈ req.Config.decoded.RegistryAuth.toList,
        a.Address.IsNull = false ∧ a.Username.IsNull = false ∧ a.Password.IsNull = false) := by
  have h : Diagnostics.HasError (Diagnostics.Append resp.Diagnostics req.Config.diags) = false := by
    rw [hdec, Diagnostics.Append_nil]; exact hprior
  have hfail : (∃ a ∈ req.Config.decoded.RegistryAuth.toList,
        a.Address.IsNull = true ∨ a.Username.IsNull = true ∨ a.Password.IsNull = true) →
      Diagnostics.HasError (p.Configure req resp).Diagnostics = true := by
    intro hinc
    rw [Configure_of_incomplete p req resp h hinc]
    exact Diagnostics.HasError_AddError _ _ _
  have hsucc : (∀ a ∈ req.Config.decoded.RegistryAuth.toList,
        a.Address.IsNull = false ∧ a.Username.IsNull = false ∧ a.Password.IsNull = false) →
      Diagnostics.HasError (p.Configure req resp).Diagnostics = false := by
    intro hall
    rw [Configure_of_complete p req resp h hall]
    exact h
  refine ⟨⟨fun he => ?_, hfail⟩, ⟨fun hok => (Configure_of_success p req resp hok).1, hsucc⟩⟩
  rcases complete_or_incomplete req.Config.decoded.RegistryAuth.toList with hinc | hall
  · exact hinc
  · rw [hsucc hall] at he
    cases he

/-- Claim C1 at a configuration whose only entry lacks `password`. -/
theorem C1_configure_error_iff_incomplete_witness :
    reqMissingPassword.Config.diags = [] ∧
    Diagnostics.HasError ConfigureResponse.fresh.Diagnostics = false ∧
    ((Diagnostics.HasError
        (exampleProvider.Configure reqMissingPassword ConfigureResponse.fresh).Diagnostics = true ↔
      ∃ a ∈ reqMissingPassword.Config.decoded.RegistryAuth.toList,
        a.Address.IsNull = true ∨ a.Username.IsNull = true ∨ a.Password.IsNull = true) ∧
    (Diagnostics.HasError
        (exampleProvider.Configure reqMissingPassword ConfigureResponse.fresh).Diagnostics = false ↔
      ∀ a ∈ reqMissingPassword.Config.decoded.RegistryAuth.toList,
        a.Address.IsNull = false ∧ a.Username.IsNull = false ∧ a.Password.IsNull = false)) :=
  ⟨rfl, rfl,
    C1_configure_error_iff_incomplete exampleProvider reqMissingPassword ConfigureResponse.fresh
      rfl rfl⟩

/-- Claim C2: when `buildkit_host` is null and `Configure` ends without error,
the configuration stored in `ResourceData` has `BuildkitHost` equal to the known
string `"unix:///var/run/buildkit/buildkitd.sock"`. -/
theorem C2_default_buildkit_host (p : buildkitProvider) (req : ConfigureRequest)
    (resp : ConfigureResponse)
    (hnull : req.Config.decoded.BuildkitHost.IsNull = true)
    (hok : Diagnostics.HasError (p.Configure req resp).Diagnostics = false) :
    ∃ cfg, (p.Configure req resp).ResourceData = .model cfg ∧
      cfg.BuildkitHost = types_StringValue "unix:///var/run/buildkit/buildkitd.sock" ∧
      cfg.BuildkitHost.ValueString = "unix:///var/run/buildkit/buildkitd.sock" := by
  refine ⟨withDefaultHost req.Config.decoded, ?_, ?_, ?_⟩
  · rw [(Configure_of_success p req resp hok).2]
  · simp only [withDefaultHost, hnull, if_true]
  · simp only [withDefaultHost, hnull, if_true]
    rfl

/-- Claim C2 at a configuration without `buildkit_host` and one complete entry. -/
theorem C2_default_buildkit_host_witness :
    reqDefaultHost.Config.decoded.BuildkitHost.IsNull = true ∧
    Diagnostics.HasError
      (exampleProvider.Configure reqDefaultHost ConfigureResponse.fresh).Diagnostics = false ∧
    ∃ cfg, (exampleProvider.Configure reqDefaultHost ConfigureResponse.fresh).ResourceData
        = .model cfg ∧
      cfg.BuildkitHost = types_StringValue "unix:///var/run/buildkit/buildkitd.sock" ∧
      cfg.BuildkitHost.ValueString = "unix:///var/run/buildkit/buildkitd.sock" :=
  ⟨rfl, rfl, C2_default_buildkit_host exampleProvider reqDefaultHost ConfigureResponse.fresh rfl rfl⟩

/-- Claim C3: when `buildkit_host` is the known string `s` (any string, the
empty one included) and `Configure` ends without error, the configuration
stored in `ResourceData` has `BuildkitHost` equal to `s`, unchanged. -/
theorem C3_buildkit_host_pass_through (p : buildkitProvider) (req : ConfigureRequest)
    (resp : ConfigureResponse) (s : String)
    (hhost : req.Config.decoded.BuildkitHost = types_StringValue s)
    (hok : Diagnostics.HasError (p.Configure req resp).Diagnostics = false) :
    ∃ cfg, (p.Configure req resp).ResourceData = .model cfg ∧
      cfg.BuildkitHost = types_StringValue s ∧ cfg.BuildkitHost.ValueString = s := by
  have hnn : req.Config.decoded.BuildkitHost.IsNull = false := by rw [hhost]; rfl
  have hw : withDefaultHost req.Config.decoded = req.Config.decoded := by
    simp only [withDefaultHost, hnn, Bool.false_eq_true, if_false]
  refine ⟨req.Config.decoded, ?_, hhost, ?_⟩
  · rw [(Configure_of_success p req resp hok).2, hw]
  · rw [hhost]; rfl

/-- Claim C3 at `buildkit_host = "tcp://host:1234"`. -/
theorem C3_buildkit_host_pass_through_witness :
    reqTcpHost.Config.decoded.BuildkitHost = types_StringValue "tcp://host:1234" ∧
    Diagnostics.HasError
      (exampleProvider.Configure reqTcpHost ConfigureResponse.fresh).Diagnostics = false ∧
    ∃ cfg, (exampleProvider.Configure reqTcpHost ConfigureResponse.fresh).ResourceData
        = .model cfg ∧
      cfg.BuildkitHost = types_StringValue "tcp://host:1234" ∧
      cfg.BuildkitHost.ValueString = "tcp://host:1234" :=
  ⟨rfl, rfl,
    C3_buildkit_host_pass_through exampleProvider reqTcpHost ConfigureResponse.fresh
      "tcp://host:1234" rfl rfl⟩

/-- Claim C4, as stated, fails: with `registry_auth` unknown, decoding returns an
error and leaves no entry in the model, so every entry is complete, yet
`Configure` ends with an error and stores no configuration. -/
theorem C4_decode_error_fails :
    (∀ a ∈ reqUnknownRegistryAuth.Config.decoded.RegistryAuth.toList,
      a.Address.IsNull = false ∧ a.Username.IsNull = false ∧ a.Password.IsNull = false) ∧
    Diagnostics.HasError
      (exampleProvider.Configure reqUnknownRegistryAuth ConfigureResponse.fresh).Diagnostics
        = true ∧
    (exampleProvider.Configure reqUnknownRegistryAuth ConfigureResponse.fresh).ResourceData
      = ConfigureResponse.fresh.ResourceData :=
  ⟨fun _ ha => (nomatch ha), by decide, rfl⟩

/-- Claim C4, amended: when decoding returns no error (into a response that
holds no error yet) and every registry_auth entry is complete, `Configure` ends
without error and the configuration stored in `ResourceData` carries the
supplied registry_auth slice itself: the same entries in the same order, hence
the same length, and no entry at all when registry_auth is absent or empty. -/
theorem C4_registry_auth_preserved (p : buildkitProvider) (req : ConfigureRequest)
    (resp : ConfigureResponse)
    (hdec : Diagnostics.HasError req.Config.diags = false)
    (hprior : Diagnostics.HasError resp.Diagnostics = false)
    (hall : ∀ a ∈ req.Config.decoded.RegistryAuth.toList,
      a.Address.IsNull = false ∧ a.Username.IsNull = false ∧ a.Password.IsNull = false) :
    Diagnostics.HasError (p.Configure req resp).Diagnostics = false ∧
    ∃ cfg, (p.Configure req resp).ResourceData = .model cfg ∧
      cfg.RegistryAuth = req.Config.decoded.RegistryAuth ∧
      cfg.RegistryAuth.toList = req.Config.decoded.RegistryAuth.toList ∧
      cfg.RegistryAuth.len = req.Config.decoded.RegistryAuth.len ∧
      (req.Config.decoded.RegistryAuth.toList = [] → cfg.RegistryAuth.len = 0) := by
  have h : Diagnostics.HasError (Diagnostics.Append resp.Diagnostics req.Config.diags) = false := by
    rw [Diagnostics.HasError_Append, hdec, hprior]; rfl
  rw [Configure_of_complete p req resp h hall]
  refine ⟨h, withDefaultHost req.Config.decoded, rfl, ?_, ?_, ?_, ?_⟩
  · exact withDefaultHost_RegistryAuth _
  · rw [withDefaultHost_RegistryAuth]
  · rw [withDefaultHost_RegistryAuth]
  · intro he
    rw [withDefaultHost_RegistryAuth, GoSlice.len, he]
    rfl

/-- Claim C4, amended, at a configuration with the single entry `a`, `u`, `p`. -/
theorem C4_registry_auth_preserved_witness :
    Diagnostics.HasError reqDefaultHost.Config.diags = false ∧
    Diagnostics.HasError ConfigureResponse.fresh.Diagnostics = false ∧
    (∀ a ∈ reqDefaultHost.Config.decoded.RegistryAuth.toList,
      a.Address.IsNull = false ∧ a.Username.IsNull = false ∧ a.Password.IsNull = false) ∧
    (Diagnostics.HasError
      (exampleProvider.Configure reqDefaultHost ConfigureResponse.fresh).Diagnostics = false ∧
    ∃ cfg, (exampleProvider.Configure reqDefaultHost ConfigureResponse.fresh).ResourceData
        = .model cfg ∧
      cfg.RegistryAuth = reqDefaultHost.Config.decoded.RegistryAuth ∧
      cfg.RegistryAuth.toList = reqDefaultHost.Config.decoded.RegistryAuth.toList ∧
      cfg.RegistryAuth.len = reqDefaultHost.Config.decoded.RegistryAuth.len ∧
      (reqDefaultHost.Config.decoded.RegistryAuth.toList = [] → cfg.RegistryAuth.len = 0)) :=
  have hall : ∀ a ∈ reqDefaultHost.Config.decoded.RegistryAuth.toList,
      a.Address.IsNull = false ∧ a.Username.IsNull = false ∧ a.Password.IsNull = false := by
    intro a ha
    have hq : a = completeAuth := by simpa [reqDefaultHost, GoSlice.toList] using ha
    rw [hq]
    exact ⟨rfl, rfl, rfl⟩
  ⟨rfl, rfl, hall,
    C4_registry_auth_preserved exampleProvider reqDefaultHost ConfigureResponse.fresh rfl rfl hall⟩

/-- Claim C5: for a configuration that decodes without diagnostics (into a
response that holds no error yet) and has at least one incomplete registry_auth
entry, `Configure` adds exactly one diagnostic, the registry_auth error, after
those already present, however many entries are incomplete and wherever they
stand. -/
theorem C5_exactly_one_diagnostic (p : buildkitProvider) (req : ConfigureRequest)
    (resp : ConfigureResponse)
    (hdec : req.Config.diags = [])
    (hprior : Diagnostics.HasError resp.Diagnostics = false)
    (hinc : ∃ a ∈ req.Config.decoded.RegistryAuth.toList,
      a.Address.IsNull = true ∨ a.Username.IsNull = true ∨ a.Password.IsNull = true) :
    (p.Configure req resp).Diagnostics = resp.Diagnostics ++ [invalidRegistryAuth] ∧
    (p.Configure req resp).Diagnostics.length = resp.Diagnostics.length + 1 := by
  have h : Diagnostics.HasError (Diagnostics.Append resp.Diagnostics req.Config.diags) = false := by
    rw [hdec, Diagnostics.Append_nil]; exact hprior
  have hd : (p.Configure req resp).Diagnostics = resp.Diagnostics ++ [invalidRegistryAuth] := by
    rw [Configure_of_incomplete p req resp h hinc]
    simp only [hdec, Diagnostics.Append_nil]
    exact Diagnostics.AddError_of_not_HasError hprior _ _
  exact ⟨hd, by rw [hd]; simp⟩

/-- Claim C5 at a configuration with a complete entry, an incomplete one and
another complete one, on a fresh response: one diagnostic in all. -/
theorem C5_exactly_one_diagnostic_witness :
    reqSecondIncomplete.Config.diags = [] ∧
    Diagnostics.HasError ConfigureResponse.fresh.Diagnostics = false ∧
    (∃ a ∈ reqSecondIncomplete.Config.decoded.RegistryAuth.toList,
      a.Address.IsNull = true ∨ a.Username.IsNull = true ∨ a.Password.IsNull = true) ∧
    ((exampleProvider.Configure reqSecondIncomplete ConfigureResponse.fresh).Diagnostics
        = ConfigureResponse.fresh.Diagnostics ++ [invalidRegistryAuth] ∧
     (exampleProvider.Configure reqSecondIncomplete ConfigureResponse.fresh).Diagnostics.length
        = ConfigureResponse.fresh.Diagnostics.length + 1) :=
  have hinc : ∃ a ∈ reqSecondIncomplete.Config.decoded.RegistryAuth.toList,
      a.Address.IsNull = true ∨ a.Username.IsNull = true ∨ a.Password.IsNull = true :=
    ⟨authMissingAddress, by simp [reqSecondIncomplete, GoSlice.toList], Or.inl rfl⟩
  ⟨rfl, rfl, hinc,
    C5_exactly_one_diagnostic exampleProvider reqSecondIncomplete ConfigureResponse.fresh
      rfl rfl hinc⟩

/-- Claim C6: whenever `Configure` ends with an error among the diagnostics,
`ResourceData` is exactly what it was before the call (unset on a fresh
response), also when the default host was already substituted and earlier
entries were complete. -/
theorem C6_no_resource_data_on_error (p : buildkitProvider) (req : ConfigureRequest)
    (resp : ConfigureResponse)
    (herr : Diagnostics.HasError (p.Configure req resp).Diagnostics = true) :
    (p.Configure req resp).ResourceData = resp.ResourceData := by
  cases h : Diagnostics.HasError (Diagnostics.Append resp.Diagnostics req.Config.diags) with
  | true => rw [Configure_of_decode_error p req resp h]
  | false =>
    rcases complete_or_incomplete req.Config.decoded.RegistryAuth.toList with hinc | hall
    · rw [Configure_of_incomplete p req resp h hinc]
    · rw [Configure_of_complete p req resp h hall] at herr
      simp only [h] at herr
      cases herr

/-- Claim C6 at a configuration without `buildkit_host` whose second entry is
incomplete, on a fresh response: `ResourceData` stays the nil interface. -/
theorem C6_no_resource_data_on_error_witness :
    Diagnostics.HasError
      (exampleProvider.Configure reqSecondIncomplete ConfigureResponse.fresh).Diagnostics = true ∧
    (exampleProvider.Configure reqSecondIncomplete ConfigureResponse.fresh).ResourceData
      = ConfigureResponse.fresh.ResourceData :=
  ⟨by decide,
    C6_no_resource_data_on_error exampleProvider reqSecondIncomplete ConfigureResponse.fresh
      (by decide)⟩

/-- Claim C7: two configurations that both decode without diagnostics and both
have an incomplete registry_auth entry leave the same diagnostics behind
(started from the same response), whichever entry or field is at fault and
whatever the addresses, usernames and passwords are. -/
theorem C7_diagnostic_independent_of_input (p₁ p₂ : buildkitProvider)
    (req₁ req₂ : ConfigureRequest) (resp : ConfigureResponse)
    (hdec₁ : req₁.Config.diags = []) (hdec₂ : req₂.Config.diags = [])
    (hinc₁ : ∃ a ∈ req₁.Config.decoded.RegistryAuth.toList,
      a.Address.IsNull = true ∨ a.Username.IsNull = true ∨ a.Password.IsNull = true)
    (hinc₂ : ∃ a ∈ req₂.Config.decoded.RegistryAuth.toList,
      a.Address.IsNull = true ∨ a.Username.IsNull = true ∨ a.Password.IsNull = true) :
    (p₁.Configure req₁ resp).Diagnostics = (p₂.Configure req₂ resp).Diagnostics := by
  cases h : Diagnostics.HasError resp.Diagnostics with
  | true =>
    have h₁ : Diagnostics.HasError (Diagnostics.Append resp.Diagnostics req₁.Config.diags) = true := by
      rw [hdec₁, Diagnostics.Append_nil]; exact h
    have h₂ : Diagnostics.HasError (Diagnostics.Append resp.Diagnostics req₂.Config.diags) = true := by
      rw [hdec₂, Diagnostics.Append_nil]; exact h
    rw [Configure_of_decode_error p₁ req₁ resp h₁, Configure_of_decode_error p₂ req₂ resp h₂,
      hdec₁, hdec₂]
  | false =>
    have h₁ : Diagnostics.HasError (Diagnostics.Append resp.Diagnostics req₁.Config.diags) = false := by
      rw [hdec₁, Diagnostics.Append_nil]; exact h
    have h₂ : Diagnostics.HasError (Diagnostics.Append resp.Diagnostics req₂.Config.diags) = false := by
      rw [hdec₂, Diagnostics.Append_nil]; exact h
    rw [Configure_of_incomplete p₁ req₁ resp h₁ hinc₁, Configure_of_incomplete p₂ req₂ resp h₂ hinc₂,
      hdec₁, hdec₂]

/-- Claim C7 at two configurations that fail at different entries, on different
fields, with different passwords. -/
theorem C7_diagnostic_independent_of_input_witness :
    reqMissingPassword.Config.diags = [] ∧ reqSecondIncomplete.Config.diags = [] ∧
    (∃ a ∈ reqMissingPassword.Config.decoded.RegistryAuth.toList,
      a.Address.IsNull = true ∨ a.Username.IsNull = true ∨ a.Password.IsNull = true) ∧
    (∃ a ∈ reqSecondIncomplete.Config.decoded.RegistryAuth.toList,
      a.Address.IsNull = true ∨ a.Username.IsNull = true ∨ a.Password.IsNull = true) ∧
    (exampleProvider.Configure reqMissingPassword ConfigureResponse.fresh).Diagnostics
      = (exampleProvider.Configure reqSecondIncomplete ConfigureResponse.fresh).Diagnostics :=
  have hinc₁ : ∃ a ∈ reqMissingPassword.Config.decoded.RegistryAuth.toList,
      a.Address.IsNull = true ∨ a.Username.IsNull = true ∨ a.Password.IsNull = true :=
    ⟨authMissingPassword, by simp [reqMissingPassword, GoSlice.toList], Or.inr (Or.inr rfl)⟩
  have hinc₂ : ∃ a ∈ reqSecondIncomplete.Config.decoded.RegistryAuth.toList,
      a.Address.IsNull = true ∨ a.Username.IsNull = true ∨ a.Password.IsNull = true :=
    ⟨authMissingAddress, by simp [reqSecondIncomplete, GoSlice.toList], Or.inl rfl⟩
  ⟨rfl, rfl, hinc₁, hinc₂,
    C7_diagnostic_independent_of_input exampleProvider exampleProvider reqMissingPassword
      reqSecondIncomplete ConfigureResponse.fresh rfl rfl hinc₁ hinc₂⟩

/-! ## Configure: content of the stored configuration -/

/-- Claim C8, as stated, fails: with `buildkit_host = ""` `Configure` ends
without error and stores a configuration whose `BuildkitHost` is the empty
string. -/
theorem C8_empty_host_accepted :
    Diagnostics.HasError
      (exampleProvider.Configure reqEmptyHost ConfigureResponse.fresh).Diagnostics = false ∧
    ∃ cfg, (exampleProvider.Configure reqEmptyHost ConfigureResponse.fresh).ResourceData
        = .model cfg ∧
      cfg.BuildkitHost = types_StringValue "" ∧ cfg.BuildkitHost.ValueString = "" :=
  ⟨rfl, reqEmptyHost.Config.decoded, rfl, rfl, rfl⟩

/-- Claim C8, amended: when `Configure` ends without error the stored
`BuildkitHost` is never null; it is the non-empty default string when
`buildkit_host` was null, and the supplied value itself otherwise (which may be
the empty string). -/
theorem C8_host_non_null (p : buildkitProvider) (req : ConfigureRequest)
    (resp : ConfigureResponse)
    (hok : Diagnostics.HasError (p.Configure req resp).Diagnostics = false) :
    ∃ cfg, (p.Configure req resp).ResourceData = .model cfg ∧
      cfg.BuildkitHost.IsNull = false ∧
      (req.Config.decoded.BuildkitHost.IsNull = true →
        cfg.BuildkitHost.ValueString = defaultBuildkitHost ∧ defaultBuildkitHost ≠ "") ∧
      (req.Config.decoded.BuildkitHost.IsNull = false →
        cfg.BuildkitHost = req.Config.decoded.BuildkitHost) := by
  refine ⟨withDefaultHost req.Config.decoded, ?_, ?_, ?_, ?_⟩
  · rw [(Configure_of_success p req resp hok).2]
  · cases hn : req.Config.decoded.BuildkitHost.IsNull with
    | true => simp only [withDefaultHost, hn, if_true]; rfl
    | false => simp only [withDefaultHost, hn, Bool.false_eq_true, if_false]
  · intro hn
    simp only [withDefaultHost, hn, if_true]
    exact ⟨rfl, by decide⟩
  · intro hn
    simp only [withDefaultHost, hn, Bool.false_eq_true, if_false]

/-- Claim C8, amended, at `buildkit_host = ""`. -/
theorem C8_host_non_null_witness :
    Diagnostics.HasError
      (exampleProvider.Configure reqEmptyHost ConfigureResponse.fresh).Diagnostics = false ∧
    ∃ cfg, (exampleProvider.Configure reqEmptyHost ConfigureResponse.fresh).ResourceData
        = .model cfg ∧
      cfg.BuildkitHost.IsNull = false ∧
      (reqEmptyHost.Config.decoded.BuildkitHost.IsNull = true →
        cfg.BuildkitHost.ValueString = defaultBuildkitHost ∧ defaultBuildkitHost ≠ "") ∧
      (reqEmptyHost.Config.decoded.BuildkitHost.IsNull = false →
        cfg.BuildkitHost = reqEmptyHost.Config.decoded.BuildkitHost) :=
  ⟨rfl, C8_host_non_null exampleProvider reqEmptyHost ConfigureResponse.fresh rfl⟩

/-- Claim C9, as stated, fails: an entry whose address, username and password
are empty strings passes validation and is stored as it is. -/
theorem C9_empty_strings_accepted :
    Diagnostics.HasError
      (exampleProvider.Configure reqEmptyStringsAuth ConfigureResponse.fresh).Diagnostics = false ∧
    ∃ cfg, (exampleProvider.Configure reqEmptyStringsAuth ConfigureResponse.fresh).ResourceData
        = .model cfg ∧
      ∃ a ∈ cfg.RegistryAuth.toList,
        a.Address.ValueString = "" ∧ a.Username.ValueString = "" ∧ a.Password.ValueString = "" :=
  ⟨rfl, withDefaultHost reqEmptyStringsAuth.Config.decoded, rfl, authEmptyStrings,
    List.mem_singleton.mpr rfl, rfl, rfl, rfl⟩

/-- Claim C9, amended: when `Configure` ends without error, every entry of the
stored registry_auth has a non-null address, a non-null username and a non-null
password (empty strings are not excluded). -/
theorem C9_entries_non_null (p : buildkitProvider) (req : ConfigureRequest)
    (resp : ConfigureResponse)
    (hok : Diagnostics.HasError (p.Configure req resp).Diagnostics = false) :
    ∃ cfg, (p.Configure req resp).ResourceData = .model cfg ∧
      ∀ a ∈ cfg.RegistryAuth.toList,
        a.Address.IsNull = false ∧ a.Username.IsNull = false ∧ a.Password.IsNull = false := by
  refine ⟨withDefaultHost req.Config.decoded, ?_, ?_⟩
  · rw [(Configure_of_success p req resp hok).2]
  · rw [withDefaultHost_RegistryAuth]
    exact (Configure_of_success p req resp hok).1

/-- Claim C9, amended, at an entry of three empty strings. -/
theorem C9_entries_non_null_witness :
    Diagnostics.HasError
      (exampleProvider.Configure reqEmptyStringsAuth ConfigureResponse.fresh).Diagnostics = false ∧
    ∃ cfg, (exampleProvider.Configure reqEmptyStringsAuth ConfigureResponse.fresh).ResourceData
        = .model cfg ∧
      ∀ a ∈ cfg.RegistryAuth.toList,
        a.Address.IsNull = false ∧ a.Username.IsNull = false ∧ a.Password.IsNull = false :=
  ⟨rfl, C9_entries_non_null exampleProvider reqEmptyStringsAuth ConfigureResponse.fresh rfl⟩

/-! ## Capability enumeration -/

/-- Claim C10: for every provider, `Resources`, `DataSources` and `Functions`
each return the empty slice literal: length zero and not nil. -/
theorem C10_enumerations_empty_not_nil (Resource DataSource Function : Type)
    (p : buildkitProvider) :
    (p.Resources Resource = .lit [] ∧ (p.Resources Resource).len = 0 ∧
      (p.Resources Resource).isNil = false) ∧
    (p.DataSources DataSource = .lit [] ∧ (p.DataSources DataSource).len = 0 ∧
      (p.DataSources DataSource).isNil = false) ∧
    (p.Functions Function = .lit [] ∧ (p.Functions Function).len = 0 ∧
      (p.Functions Function).isNil = false) :=
  ⟨⟨rfl, rfl, rfl⟩, ⟨rfl, rfl, rfl⟩, ⟨rfl, rfl, rfl⟩⟩

/-! ## Further facts about `Append` -/

theorem Diagnostics.Contains_iff (diags : Diagnostics) (d : Diagnostic) :
    Diagnostics.Contains diags d = true ↔ d ∈ diags := by
  unfold Diagnostics.Contains
  rw [List.any_eq_true]
  constructor
  · rintro ⟨x, hx, hxe⟩
    have hxd : x = d := by simpa using hxe
    rw [← hxd]; exact hx
  · intro hd
    exact ⟨d, hd, by simp⟩

theorem Diagnostics.Append_cons (diags : Diagnostics) (d : Diagnostic) (rest : List Diagnostic) :
    Diagnostics.Append diags (d :: rest) =
      Diagnostics.Append (if Diagnostics.Contains diags d then diags else diags ++ [d]) rest := by
  unfold Diagnostics.Append
  rw [List.foldl_cons]

/-- The diagnostics after `Append` are those of the two collections. -/
theorem Diagnostics.mem_Append (diags incoming : Diagnostics) (d : Diagnostic) :
    d ∈ Diagnostics.Append diags incoming ↔ d ∈ diags ∨ d ∈ incoming := by
  induction incoming generalizing diags with
  | nil => simp [Diagnostics.Append_nil]
  | cons x rest ih =>
    rw [Diagnostics.Append_cons, ih]
    by_cases hc : Diagnostics.Contains diags x = true
    · rw [if_pos hc]
      have hx : x ∈ diags := (Diagnostics.Contains_iff diags x).mp hc
      constructor
      · rintro (h | h)
        · exact Or.inl h
        · exact Or.inr (List.mem_cons_of_mem x h)
      · rintro (h | h)
        · exact Or.inl h
        · rcases List.mem_cons.mp h with rfl | h
          · exact Or.inl hx
          · exact Or.inr h
    · rw [if_neg hc]
      simp only [List.mem_append, List.mem_singleton, List.mem_cons]
      tauto

/-- Without repeats, `Append` is concatenation. -/
theorem Diagnostics.Append_eq_append (diags incoming : Diagnostics)
    (hnew : ∀ d ∈ incoming, d ∉ diags) (hnodup : incoming.Nodup) :
    Diagnostics.Append diags incoming = diags ++ incoming := by
  induction incoming generalizing diags with
  | nil => simp [Diagnostics.Append_nil]
  | cons x rest ih =>
    have hx : ¬ Diagnostics.Contains diags x = true := fun hc =>
      hnew x (List.mem_cons_self x rest) ((Diagnostics.Contains_iff diags x).mp hc)
    rw [Diagnostics.Append_cons, if_neg hx, ih]
    · simp
    · intro d hd hmem
      rcases List.mem_append.mp hmem with h | h
      · exact hnew d (List.mem_cons_of_mem x hd) h
      · have hdx : d = x := by simpa using h
        rw [hdx] at hd
        exact (List.nodup_cons.mp hnodup).1 hd
    · exact (List.nodup_cons.mp hnodup).2

/-! ## Metadata and schema -/

/-- Claim C11, as stated, fails for the type name: providers constructed with
different values report the same `TypeName`, the literal `"buildkit"`, which
is none of the values given at construction. -/
theorem C11_type_name_not_from_construction :
    ((New "1.0.0" ()).Metadata metadataResponseBefore).TypeName = "buildkit" ∧
    ((New "2.0.0" ()).Metadata metadataResponseBefore).TypeName = "buildkit" ∧
    ((New "1.0.0" ()).Metadata metadataResponseBefore).TypeName ≠ "1.0.0" ∧
    ((New "2.0.0" ()).Metadata metadataResponseBefore).TypeName ≠ "2.0.0" :=
  ⟨rfl, rfl, by decide, by decide⟩

/-- Claim C11, amended: for every version string `v`, the provider built by
`New v` reports `Version = v`; the reported `TypeName` is the fixed string
`"buildkit"` for every provider; and the response after `Metadata` is the same
whatever the response held before. -/
theorem C11_metadata (v : String) (resp : MetadataResponse) :
    ((New v ()).Metadata resp).Version = v ∧
    (∀ p : buildkitProvider, (p.Metadata resp).TypeName = "buildkit" ∧
      (p.Metadata resp).Version = p.version) ∧
    (∀ (p : buildkitProvider) (resp₂ : MetadataResponse), p.Metadata resp₂ = p.Metadata resp) :=
  ⟨rfl, fun _ => ⟨rfl, rfl⟩, fun _ _ => rfl⟩

/-- Claim C12: the schema set by `Schema` has exactly the two top-level keys
`buildkit_host`, an optional string attribute, and `registry_auth`, an optional
list-nested attribute; the nested object has exactly the three keys `address`,
`username` and `password`, each a required string attribute; and the only
attribute marked sensitive, at any depth, is `registry_auth.password`. -/
theorem C12_schema_shape (p : buildkitProvider) (resp : SchemaResponse) :
    (p.Schema resp).Schema.Attributes.map Prod.fst = ["buildkit_host", "registry_auth"] ∧
    (∃ host, (p.Schema resp).Schema.Attributes.lookup "buildkit_host" = some host ∧
      host.isStringAttribute = true ∧ host.IsOptional = true ∧ host.IsRequired = false ∧
      host.IsSensitive = false) ∧
    (∃ auth, (p.Schema resp).Schema.Attributes.lookup "registry_auth" = some auth ∧
      auth.isListNestedAttribute = true ∧ auth.IsOptional = true ∧ auth.IsRequired = false ∧
      auth.IsSensitive = false ∧
      auth.nestedAttributes.map Prod.fst = ["address", "username", "password"] ∧
      ∀ key attr, (key, attr) ∈ auth.nestedAttributes →
        attr.isStringAttribute = true ∧ attr.IsRequired = true ∧ attr.IsOptional = false ∧
        (attr.IsSensitive = true ↔ key = "password")) ∧
    sensitivePaths (p.Schema resp).Schema.Attributes = [["registry_auth", "password"]] := by
  refine ⟨rfl, ⟨_, rfl, rfl, rfl, rfl, rfl⟩, ⟨_, rfl, rfl, rfl, rfl, rfl, rfl, ?_⟩, rfl⟩
  intro key attr hmem
  simp only [schema_Attribute.nestedAttributes, List.mem_cons, Prod.mk.injEq,
    List.mem_singleton, List.not_mem_nil, or_false] at hmem
  rcases hmem with ⟨rfl, rfl⟩ | ⟨rfl, rfl⟩ | ⟨rfl, rfl⟩
  · exact ⟨rfl, rfl, rfl, by decide⟩
  · exact ⟨rfl, rfl, rfl, by decide⟩
  · exact ⟨rfl, rfl, rfl, by decide⟩

/-! ## Configure: frame of the response -/

/-- Claim C13, as stated, fails: when the response already holds the error
that decoding returns, the diagnostics after `Configure` hold it once, not the
prior diagnostics followed by the decoding diagnostics. -/
theorem C13_repeated_diagnostic_skipped :
    Diagnostics.HasError reqDecodeError.Config.diags = true ∧
    (exampleProvider.Configure reqDecodeError respWithDecodeError).Diagnostics = [decodeError] ∧
    (exampleProvider.Configure reqDecodeError respWithDecodeError).Diagnostics ≠
      respWithDecodeError.Diagnostics ++ reqDecodeError.Config.diags := by
  have h : (exampleProvider.Configure reqDecodeError respWithDecodeError).Diagnostics
      = [decodeError] := by decide
  refine ⟨rfl, h, ?_⟩
  rw [h]
  intro he
  have hl := congrArg List.length he
  simp [respWithDecodeError, reqDecodeError] at hl

/-- Claim C13, amended: when decoding returns an error diagnostic, `Configure`
returns at once: the response differs from the one before only in its
diagnostics, which are the prior ones followed by the decoding diagnostics not
already present (exactly the prior ones followed by the decoding ones when none
repeats); every diagnostic is a prior or a decoding one, the outcome is the
same whatever the decoded entries are, and `ResourceData` is as before. -/
theorem C13_return_on_decode_error (p : buildkitProvider) (req : ConfigureRequest)
    (resp : ConfigureResponse)
    (hdec : Diagnostics.HasError req.Config.diags = true) :
    p.Configure req resp =
      { resp with Diagnostics := Diagnostics.Append resp.Diagnostics req.Config.diags } ∧
    ((∀ d ∈ req.Config.diags, d ∉ resp.Diagnostics) → req.Config.diags.Nodup →
      (p.Configure req resp).Diagnostics = resp.Diagnostics ++ req.Config.diags) ∧
    (∀ d ∈ (p.Configure req resp).Diagnostics, d ∈ resp.Diagnostics ∨ d ∈ req.Config.diags) ∧
    (∀ req₂ : ConfigureRequest, req₂.Config.diags = req.Config.diags →
      p.Configure req₂ resp = p.Configure req resp) ∧
    (p.Configure req resp).ResourceData = resp.ResourceData := by
  have h : Diagnostics.HasError (Diagnostics.Append resp.Diagnostics req.Config.diags) = true := by
    rw [Diagnostics.HasError_Append, hdec, Bool.or_true]
  have hc := Configure_of_decode_error p req resp h
  refine ⟨hc, ?_, ?_, ?_, ?_⟩
  · intro hnew hnodup
    rw [hc]
    exact Diagnostics.Append_eq_append _ _ hnew hnodup
  · intro d hd
    rw [hc] at hd
    exact (Diagnostics.mem_Append _ _ d).mp hd
  · intro req₂ h₂
    have h' : Diagnostics.HasError
        (Diagnostics.Append resp.Diagnostics req₂.Config.diags) = true := by rw [h₂]; exact h
    rw [hc, Configure_of_decode_error p req₂ resp h', h₂]
  · rw [hc]

/-- Claim C13, amended, at a decoding error with an incomplete entry in the
decoded model, on a fresh response. -/
theorem C13_return_on_decode_error_witness :
    Diagnostics.HasError reqDecodeError.Config.diags = true ∧
    (exampleProvider.Configure reqDecodeError ConfigureResponse.fresh =
      { ConfigureResponse.fresh with
        Diagnostics :=
          Diagnostics.Append ConfigureResponse.fresh.Diagnostics reqDecodeError.Config.diags } ∧
    ((∀ d ∈ reqDecodeError.Config.diags, d ∉ ConfigureResponse.fresh.Diagnostics) →
      reqDecodeError.Config.diags.Nodup →
      (exampleProvider.Configure reqDecodeError ConfigureResponse.fresh).Diagnostics =
        ConfigureResponse.fresh.Diagnostics ++ reqDecodeError.Config.diags) ∧
    (∀ d ∈ (exampleProvider.Configure reqDecodeError ConfigureResponse.fresh).Diagnostics,
      d ∈ ConfigureResponse.fresh.Diagnostics ∨ d ∈ reqDecodeError.Config.diags) ∧
    (∀ req₂ : ConfigureRequest, req₂.Config.diags = reqDecodeError.Config.diags →
      exampleProvider.Configure req₂ ConfigureResponse.fresh =
        exampleProvider.Configure reqDecodeError ConfigureResponse.fresh) ∧
    (exampleProvider.Configure reqDecodeError ConfigureResponse.fresh).ResourceData =
      ConfigureResponse.fresh.ResourceData) :=
  ⟨rfl, C13_return_on_decode_error exampleProvider reqDecodeError ConfigureResponse.fresh rfl⟩

/-- Decoding diagnostics that are all errors and hold no error are none. -/
theorem Diagnostics.eq_nil_of_errors_only (diags : Diagnostics)
    (hall : ∀ d ∈ diags, d.Severity = .SeverityError)
    (h : Diagnostics.HasError diags = false) : diags = [] := by
  cases diags with
  | nil => rfl
  | cons d rest =>
    have ht := Diagnostics.HasError_of_mem (List.mem_cons_self d rest)
      (hall d (List.mem_cons_self d rest))
    rw [h] at ht
    cases ht

/-- Claim C14: when `Configure` ends without error (decoding into the model
returning error diagnostics only, as it does for the string and list-nested
attributes of the provider schema), the response after the call is the
response before it with the configuration stored in `ResourceData`:
`DataSourceData` is unchanged and the diagnostics are exactly those already
present. -/
theorem C14_success_frame (p : buildkitProvider) (req : ConfigureRequest)
    (resp : ConfigureResponse)
    (hget : ∀ d ∈ req.Config.diags, d.Severity = .SeverityError)
    (hok : Diagnostics.HasError (p.Configure req resp).Diagnostics = false) :
    p.Configure req resp =
      { resp with ResourceData := .model (withDefaultHost req.Config.decoded) } ∧
    (p.Configure req resp).ResourceData = .model (withDefaultHost req.Config.decoded) ∧
    (p.Configure req resp).DataSourceData = resp.DataSourceData ∧
    (p.Configure req resp).Diagnostics = resp.Diagnostics := by
  have hc := (Configure_of_success p req resp hok).2
  have hno : Diagnostics.HasError req.Config.diags = false := by
    rw [hc] at hok
    have hor : (Diagnostics.HasError resp.Diagnostics ||
        Diagnostics.HasError req.Config.diags) = false := by
      rw [← Diagnostics.HasError_Append]; exact hok
    exact (Bool.or_eq_false_iff.mp hor).2
  have hnil : req.Config.diags = [] := Diagnostics.eq_nil_of_errors_only _ hget hno
  have hfull : p.Configure req resp =
      { resp with ResourceData := .model (withDefaultHost req.Config.decoded) } := by
    rw [hc, hnil, Diagnostics.Append_nil]
  refine ⟨hfull, ?_, ?_, ?_⟩ <;> rw [hfull]

/-- Claim C14 at a configuration with one complete entry, on a response that
already holds a warning and other values in both data fields. -/
theorem C14_success_frame_witness :
    (∀ d ∈ reqDefaultHost.Config.diags, d.Severity = .SeverityError) ∧
    Diagnostics.HasError
      (exampleProvider.Configure reqDefaultHost respWithData).Diagnostics = false ∧
    (exampleProvider.Configure reqDefaultHost respWithData =
      { respWithData with
        ResourceData := .model (withDefaultHost reqDefaultHost.Config.decoded) } ∧
    (exampleProvider.Configure reqDefaultHost respWithData).ResourceData
      = .model (withDefaultHost reqDefaultHost.Config.decoded) ∧
    (exampleProvider.Configure reqDefaultHost respWithData).DataSourceData
      = respWithData.DataSourceData ∧
    (exampleProvider.Configure reqDefaultHost respWithData).Diagnostics
      = respWithData.Diagnostics) :=
  ⟨(fun _ hd => nomatch hd), by decide,
    C14_success_frame exampleProvider reqDefaultHost respWithData (fun _ hd => nomatch hd)
      (by decide)⟩

end BuildkitProvider
